import Mathlib

/-!
# madonctl — verification of the output-rendering / CLI dispatch layer

Shallow embedding of the `cmd` package of the madonctl repository
(`src/cmd/root.go`, `src/cmd/toot.go` — which holds the toot-alias, timeline
and status command files — and `src/cmd/suggestions.go`), together with a
model of the output-rendering subsystem.  The rendering subsystem itself
(`checkOutputFormat`, `getPrinter`, the printers, themes and templates) is not
part of the source tree that was provided; those definitions are modelled from
the specification and are marked `Modelled from the spec:` in their doc
comments.  Everything else is translated directly from the Go source.
-/

namespace Madonctl

/-! ## Records and values

The spec (§3) describes a record as an opaque mapping from field names to
values: string, number, boolean, nested record, or list thereof.  We use a
mutual inductive so that structural induction over records is available. -/

mutual

/-- A field value of a record (spec §3): scalar, nested record, or list. -/
inductive Value where
  | str (s : String)
  | num (n : Int)
  | boolean (b : Bool)
  | vlist (vs : ValueList)
  | vrec (fs : Fields)
deriving DecidableEq, Repr

/-- An ordered list of values. -/
inductive ValueList where
  | nil
  | cons (v : Value) (tl : ValueList)
deriving DecidableEq, Repr

/-- An ordered field map: insertion order is significant (spec §4.3: stable
field ordering equal to the declaration order). -/
inductive Fields where
  | nil
  | cons (key : String) (v : Value) (tl : Fields)
deriving DecidableEq, Repr

end

/-- One structured API result (spec glossary): a field map plus a `kind` tag
identifying the record's category. -/
structure Record where
  kind : String
  fields : Fields
deriving DecidableEq, Repr

/-! ## JSON serializer strategy

Modelled from the spec (§4.3): "canonical JSON encoding, pretty-printed with
stable key order equal to field declaration order; must be loss-lessly
re-decodable into an equivalent record."  The serializer is not under `src/`
(only its callers are), so we model the canonical encoding at the lexical
token level: a token stream is the serialized form (the printing of tokens to
characters, including whitespace, is injective and orthogonal to the
round-trip property). -/

/-- A JSON lexical token. -/
inductive JTok where
  | lbrace
  | rbrace
  | lbrack
  | rbrack
  | colon
  | comma
  | jstr (s : String)
  | jnum (n : Int)
  | jbool (b : Bool)
deriving DecidableEq, Repr

mutual

/-- Modelled from the spec: canonical JSON encoding of a value, with key
order equal to field declaration order. -/
def encodeJsonV : Value → List JTok
  | .str s => [.jstr s]
  | .num n => [.jnum n]
  | .boolean b => [.jbool b]
  | .vlist .nil => [.lbrack, .rbrack]
  | .vlist (.cons v tl) =>
      .lbrack :: (encodeJsonV v ++ encodeJsonItems tl ++ [.rbrack])
  | .vrec .nil => [.lbrace, .rbrace]
  | .vrec (.cons k v tl) =>
      .lbrace :: .jstr k :: .colon :: (encodeJsonV v ++ encodeJsonFields tl ++ [.rbrace])

/-- Encodes the second and later elements of a JSON array, each preceded by a
comma. -/
def encodeJsonItems : ValueList → List JTok
  | .nil => []
  | .cons v tl => .comma :: (encodeJsonV v ++ encodeJsonItems tl)

/-- Encodes the second and later fields of a JSON object, each preceded by a
comma, in declaration order. -/
def encodeJsonFields : Fields → List JTok
  | .nil => []
  | .cons k v tl => .comma :: .jstr k :: .colon :: (encodeJsonV v ++ encodeJsonFields tl)

end

mutual

/-- Recursive-descent JSON parser over tokens; `fuel` bounds the recursion
depth (each recursive call consumes one unit). -/
def parseJsonV : Nat → List JTok → Option (Value × List JTok)
  | 0, _ => none
  | _ + 1, .jstr s :: rest => some (.str s, rest)
  | _ + 1, .jnum n :: rest => some (.num n, rest)
  | _ + 1, .jbool b :: rest => some (.boolean b, rest)
  | _ + 1, .lbrack :: .rbrack :: rest => some (.vlist .nil, rest)
  | fuel + 1, .lbrack :: rest =>
      match parseJsonV fuel rest with
      | some (v, rest1) =>
          match parseJsonItems fuel rest1 with
          | some (tl, rest2) => some (.vlist (.cons v tl), rest2)
          | none => none
      | none => none
  | _ + 1, .lbrace :: .rbrace :: rest => some (.vrec .nil, rest)
  | fuel + 1, .lbrace :: .jstr k :: .colon :: rest =>
      match parseJsonV fuel rest with
      | some (v, rest1) =>
          match parseJsonFields fuel rest1 with
          | some (tl, rest2) => some (.vrec (.cons k v tl), rest2)
          | none => none
      | none => none
  | _ + 1, _ => none

/-- Parses `(, value)* ]`, the tail of a JSON array. -/
def parseJsonItems : Nat → List JTok → Option (ValueList × List JTok)
  | 0, _ => none
  | _ + 1, .rbrack :: rest => some (.nil, rest)
  | fuel + 1, .comma :: rest =>
      match parseJsonV fuel rest with
      | some (v, rest1) =>
          match parseJsonItems fuel rest1 with
          | some (tl, rest2) => some (.cons v tl, rest2)
          | none => none
      | none => none
  | _ + 1, _ => none

/-- Parses `(, "key" : value)* \x7d`, the tail of a JSON object. -/
def parseJsonFields : Nat → List JTok → Option (Fields × List JTok)
  | 0, _ => none
  | _ + 1, .rbrace :: rest => some (.nil, rest)
  | fuel + 1, .comma :: .jstr k :: .colon :: rest =>
      match parseJsonV fuel rest with
      | some (v, rest1) =>
          match parseJsonFields fuel rest1 with
          | some (tl, rest2) => some (.cons k v tl, rest2)
          | none => none
      | none => none
  | _ + 1, _ => none

end

/-- Modelled from the spec: the json decoder — parses a full token stream back
into a value; fails if tokens remain. -/
def decodeJsonV (toks : List JTok) : Option Value :=
  match parseJsonV toks.length toks with
  | some (v, []) => some v
  | _ => none

/-! ## YAML serializer strategy

Modelled from the spec (§4.3): "same content and ordering guarantees as json,
encoded as YAML."  Block-style YAML is modelled at the lexical token level:
mapping keys, sequence dashes, and indentation scopes are tokens (the textual
rendering of these tokens with real indentation is injective). -/

/-- A block-style YAML lexical token. -/
inductive YTok where
  | ystr (s : String)
  | ynum (n : Int)
  | ybool (b : Bool)
  | ykey (k : String)
  | ydash
  | ymapBegin
  | ymapEnd
  | yseqBegin
  | yseqEnd
deriving DecidableEq, Repr

mutual

/-- Modelled from the spec: YAML encoding of a value, with key order equal to
field declaration order. -/
def encodeYamlV : Value → List YTok
  | .str s => [.ystr s]
  | .num n => [.ynum n]
  | .boolean b => [.ybool b]
  | .vlist vs => .yseqBegin :: (encodeYamlItems vs ++ [.yseqEnd])
  | .vrec fs => .ymapBegin :: (encodeYamlFields fs ++ [.ymapEnd])

/-- Encodes the items of a YAML block sequence, each introduced by a dash. -/
def encodeYamlItems : ValueList → List YTok
  | .nil => []
  | .cons v tl => .ydash :: (encodeYamlV v ++ encodeYamlItems tl)

/-- Encodes the entries of a YAML block mapping, each introduced by its key,
in declaration order. -/
def encodeYamlFields : Fields → List YTok
  | .nil => []
  | .cons k v tl => .ykey k :: (encodeYamlV v ++ encodeYamlFields tl)

end

mutual

/-- Recursive-descent YAML parser over tokens; `fuel` bounds the recursion
depth. -/
def parseYamlV : Nat → List YTok → Option (Value × List YTok)
  | 0, _ => none
  | _ + 1, .ystr s :: rest => some (.str s, rest)
  | _ + 1, .ynum n :: rest => some (.num n, rest)
  | _ + 1, .ybool b :: rest => some (.boolean b, rest)
  | fuel + 1, .yseqBegin :: rest =>
      match parseYamlItems fuel rest with
      | some (vs, rest1) => some (.vlist vs, rest1)
      | none => none
  | fuel + 1, .ymapBegin :: rest =>
      match parseYamlFields fuel rest with
      | some (fs, rest1) => some (.vrec fs, rest1)
      | none => none
  | _ + 1, _ => none

/-- Parses `(- value)*` terminated by the end of the sequence scope. -/
def parseYamlItems : Nat → List YTok → Option (ValueList × List YTok)
  | 0, _ => none
  | _ + 1, .yseqEnd :: rest => some (.nil, rest)
  | fuel + 1, .ydash :: rest =>
      match parseYamlV fuel rest with
      | some (v, rest1) =>
          match parseYamlItems fuel rest1 with
          | some (tl, rest2) => some (.cons v tl, rest2)
          | none => none
      | none => none
  | _ + 1, _ => none

/-- Parses `(key: value)*` terminated by the end of the mapping scope. -/
def parseYamlFields : Nat → List YTok → Option (Fields × List YTok)
  | 0, _ => none
  | _ + 1, .ymapEnd :: rest => some (.nil, rest)
  | fuel + 1, .ykey k :: rest =>
      match parseYamlV fuel rest with
      | some (v, rest1) =>
          match parseYamlFields fuel rest1 with
          | some (tl, rest2) => some (.cons k v tl, rest2)
          | none => none
      | none => none
  | _ + 1, _ => none

end

/-- Modelled from the spec: the yaml decoder — parses a full token stream back
into a value; fails if tokens remain. -/
def decodeYamlV (toks : List YTok) : Option Value :=
  match parseYamlV toks.length toks with
  | some (v, []) => some v
  | _ => none

/-! ## The --keep truncation

The same three lines appear at every result-list site:
`if opt.keep > 0 && len(sl) > int(opt.keep) { sl = sl[:opt.keep] }`
(timelineRunE, statusSubcommandRunE for reblogged-by and favourited-by, and
suggestionsGetRunE). -/

/-- The `--keep` truncation: keep the first `keep` elements when `keep` is
positive and the list is longer, otherwise pass the list through unchanged. -/
def applyKeep {α : Type} (keep : Nat) (l : List α) : List α :=
  if keep > 0 ∧ l.length > keep then l.take keep else l

/-! ## Result values and rendering

The Object Model Adapter's normalized payload (spec §3) and the Output Format
Dispatcher (spec §4.1).  The dispatcher/serializer code is not under `src/`;
it is modelled from the spec. -/

/-- The normalized payload (spec §3): `Empty`, `Single(record)`, or
`List(records)`.  In the Go source this is the `obj interface\x7b\x7d` value of
`statusSubcommandRunE`: nil, a single record pointer, or a slice. -/
inductive ResultValue where
  | empty
  | single (r : Record)
  | list (rs : List Record)
deriving DecidableEq, Repr

/-- The rendering-error taxonomy (spec §7). -/
inductive RenderError where
  | invalidFormat (fmt : String)
  | missingTemplate
  | ambiguousTemplate
  | unknownTheme (name : String) (known : List String)
  | noTemplateForKind (kind : String)
  | templateParseError (source : String) (pos : Nat)
  | templateEvalError (what : String)
  | encodeError
deriving DecidableEq, Repr

/-- The human-readable message attached to each rendering error (spec §7: all
errors are reported to the user with a human-readable message). -/
def RenderError.message : RenderError → String
  | .invalidFormat fmt => "invalid output format '" ++ fmt ++ "'"
  | .missingTemplate => "missing template"
  | .ambiguousTemplate => "cannot use both --template and --template-file"
  | .unknownTheme name known =>
      "unknown theme '" ++ name ++ "' (known themes: " ++
        String.intercalate ", " known ++ ")"
  | .noTemplateForKind kind => "no template for kind '" ++ kind ++ "'"
  | .templateParseError source pos =>
      "template parse error in '" ++ source ++ "' at position " ++ toString pos
  | .templateEvalError what => "template evaluation error: " ++ what
  | .encodeError => "cannot encode object"

/-- The output-format request carried by the CLI flags (spec §3
RenderRequest). -/
structure RenderRequest where
  format : String
  templateBody : Option String
  templateFilePath : Option String
  themeName : Option String
  colorMode : String
deriving DecidableEq, Repr

/-- The closed set of output formats (root.go flag usage string, spec §4.1). -/
def validFormats : List String := ["plain", "json", "yaml", "template", "theme"]

/-- The closed set of color modes (root.go flag usage string, spec §4.6). -/
def validColorModes : List String := ["auto", "on", "off"]

/-- Modelled from the spec: an unset `--output` flag (registered default is the
empty string, root.go line 139) resolves to the default format, plain (§6). -/
def effectiveFormat (s : String) : String := if s = "" then "plain" else s

/-- Modelled from the spec: an unset `--color` flag (registered default is the
empty string, root.go line 147) resolves to the default mode, auto (§6). -/
def effectiveColorMode (s : String) : String := if s = "" then "auto" else s

/-- Modelled from the spec: the configuration-shape validation of the Output
Format Dispatcher (§4.1) — it depends only on the request and the loaded theme
names, never on the result.  An empty format means the default (plain). -/
def validateRequest (themes : List String) (rq : RenderRequest) : Option RenderError :=
  if ¬ (rq.format ∈ "" :: validFormats) then some (.invalidFormat rq.format)
  else if rq.format = "template" ∧ rq.templateBody = none ∧ rq.templateFilePath = none then
    some .missingTemplate
  else if rq.format = "template" ∧ rq.templateBody ≠ none ∧ rq.templateFilePath ≠ none then
    some .ambiguousTemplate
  else if rq.format = "theme" then
    match rq.themeName with
    | none => some (.unknownTheme "" themes)
    | some n => if n ∈ themes then none else some (.unknownTheme n themes)
  else none

/-- Modelled from the spec: `checkOutputFormat`, the PersistentPreRunE hook
installed on RootCmd (root.go line 63); it performs the configuration-shape
validation before any command logic runs. -/
def checkOutputFormatM (themes : List String) (rq : RenderRequest) : Option RenderError :=
  validateRequest themes rq

/-- Textual rendering of a JSON token (used by the json per-record printer). -/
def jtokText : JTok → String
  | .lbrace => "\x7b"
  | .rbrace => "\x7d"
  | .lbrack => "["
  | .rbrack => "]"
  | .colon => ": "
  | .comma => ", "
  | .jstr s => "\"" ++ s ++ "\""
  | .jnum n => toString n
  | .jbool b => toString b

/-- Textual rendering of a YAML token. -/
def ytokText : YTok → String
  | .ystr s => s
  | .ynum n => toString n
  | .ybool b => toString b
  | .ykey k => k ++ ": "
  | .ydash => "- "
  | .ymapBegin => ""
  | .ymapEnd => ""
  | .yseqBegin => ""
  | .yseqEnd => ""

mutual

/-- Compact display of a value on a plain-text line. -/
def showValue : Value → String
  | .str s => s
  | .num n => toString n
  | .boolean b => toString b
  | .vlist vs => "[" ++ showValueList vs ++ "]"
  | .vrec fs => "(" ++ showFields fs ++ ")"

/-- Compact display of a list of values. -/
def showValueList : ValueList → String
  | .nil => ""
  | .cons v .nil => showValue v
  | .cons v tl => showValue v ++ ", " ++ showValueList tl

/-- Compact display of a field map. -/
def showFields : Fields → String
  | .nil => ""
  | .cons k v .nil => k ++ ": " ++ showValue v
  | .cons k v tl => k ++ ": " ++ showValue v ++ ", " ++ showFields tl

end

/-- Modelled from the spec: the plain serializer for one record — one line per
top-level field as `key: value`, in declaration order (§4.3). -/
def renderPlainFields : Fields → String
  | .nil => ""
  | .cons k v tl => k ++ ": " ++ showValue v ++ "\n" ++ renderPlainFields tl

/-- Plain rendering of one record. -/
def renderPlainRecord (r : Record) : String := renderPlainFields r.fields

/-- Modelled from the spec: the per-record rendering selected by the request
format — plain, json or yaml.  (Template bodies and themes are outside the
claims' scope; the dispatcher's per-element structure below is what the claims
constrain.) -/
def renderOneFor (rq : RenderRequest) : Record → String :=
  if rq.format = "json" then
    fun r => String.join ((encodeJsonV (.vrec r.fields)).map jtokText)
  else if rq.format = "yaml" then
    fun r => String.join ((encodeYamlV (.vrec r.fields)).map ytokText)
  else renderPlainRecord

/-- Modelled from the spec: list rendering by the Output Format Dispatcher
(§4.1) — each element rendered independently with the same per-record
rendering, concatenated in input order with a single separating line break. -/
def renderList (renderOne : Record → String) : List Record → String
  | [] => ""
  | [r] => renderOne r
  | r :: rs => renderOne r ++ "\n" ++ renderList renderOne rs

/-- Modelled from the spec: the dispatcher's routing over the normalized
result value (§4.1): Empty renders to nothing, Single to one record, List via
`renderList`. -/
def renderResult (renderOne : Record → String) : ResultValue → String
  | .empty => ""
  | .single r => renderOne r
  | .list rs => renderList renderOne rs

/-- A printer, as returned by getPrinter: renders a result value, or fails
with a rendering-time error. -/
abbrev Printer := ResultValue → Except RenderError String

/-- Modelled from the spec: the printer selected once validation passed. -/
def printerFor (rq : RenderRequest) : Printer :=
  fun res => .ok (renderResult (renderOneFor rq) res)

/-- Modelled from the spec: `getPrinter` — validates the request
configuration and returns the matching printer, or the configuration-shape
error.  Not under `src/`; behaviour from spec §4.1. -/
def getPrinterM (themes : List String) (rq : RenderRequest) :
    Except RenderError Printer :=
  match validateRequest themes rq with
  | some e => .error e
  | none => .ok (printerFor rq)

/-! ## Command execution traces

The observable steps of one command invocation: validation hooks, API calls,
messages printed to stderr, rendered output, and the exit.  Cobra runs the
PersistentPreRunE of the invoked command or, when it has none, of the nearest
ancestor that defines one; hooks further up are NOT run.  RootCmd installs
`checkOutputFormat` as its PersistentPreRunE (root.go line 63), and statusCmd
installs its own (toot.go status section), which therefore shadows the root
hook for every status subcommand. -/

/-- One observable step of a command invocation. -/
inductive Event where
  | checkFormat (fmt : String) (ok : Bool)
  | statusPreRun
  | apiCall (name : String) (arg : String)
  | errPrint (msg : String)
  | output (text : String)
deriving DecidableEq, Repr

/-- Whether an event is a network API call. -/
def Event.isApiCall : Event → Bool
  | .apiCall _ _ => true
  | _ => false

/-- Whether an event is rendered output written to stdout. -/
def Event.isOutput : Event → Bool
  | .output _ => true
  | _ => false

/-- Whether any API call occurs in a trace. -/
def hasApiCall (evs : List Event) : Bool := evs.any Event.isApiCall

/-- Whether any rendered output occurs in a trace. -/
def hasOutput (evs : List Event) : Bool := evs.any Event.isOutput

/-- What a RunE (or hook) invocation ends with: a returned error value
(`none` = nil = success), or a direct `os.Exit`. -/
inductive RunOutcome where
  | ret (err : Option String)
  | exited (code : Int)
deriving DecidableEq, Repr

/-- The events of one RunE invocation together with how it ended. -/
structure Trace where
  events : List Event
  outcome : RunOutcome
deriving DecidableEq, Repr

/-- The whole-process view: final event list and process exit status. -/
structure ProcResult where
  events : List Event
  exitCode : Int
deriving DecidableEq, Repr

/-- `Execute` (root.go lines 121-126): a non-nil error returned by the command
tree is printed as `Error: ...` and the process exits with -1; a nil return
exits 0; an `os.Exit` inside a RunE has already fixed the exit code. -/
def execute (t : Trace) : ProcResult :=
  match t.outcome with
  | .ret none => ⟨t.events, 0⟩
  | .ret (some msg) => ⟨t.events ++ [.errPrint ("Error: " ++ msg)], -1⟩
  | .exited c => ⟨t.events, c⟩

/-- Cobra dispatch for commands whose chain has no intermediate
PersistentPreRunE: RootCmd's `checkOutputFormat` hook runs first; if it fails
the RunE never runs (fail-fast), otherwise the RunE's trace follows. -/
def runRootHooked (themes : List String) (rq : RenderRequest) (runE : Trace) : ProcResult :=
  match checkOutputFormatM themes rq with
  | some e => execute ⟨[.checkFormat rq.format false], .ret (some e.message)⟩
  | none => execute ⟨Event.checkFormat rq.format true :: runE.events, runE.outcome⟩

/-! ## The status command (toot.go, status section) -/

/-- The `statusOpts` fields used by `statusSubcommandRunE`. -/
structure StatusOpts where
  statusID : Int
  unset : Bool
  limit : Nat
  keep : Nat
  all : Bool
  textFilePath : String
  stdin : Bool
deriving DecidableEq, Repr

/-- The API-collaborator responses available to one status invocation; each
field is the result the madon client would return for that call. -/
structure StatusEnv where
  loginOK : Bool
  getStatus : Except String Record
  getStatusContext : Except String Record
  getStatusCard : Except String Record
  getStatusRebloggedBy : Except String (List Record)
  getStatusFavouritedBy : Except String (List Record)
  deleteStatus : Option String
  reblogStatus : Option String
  unreblogStatus : Option String
  favouriteStatus : Option String
  unfavouriteStatus : Option String
  pinStatus : Option String
  unpinStatus : Option String
  muteConversation : Except String Record
  unmuteConversation : Except String Record
  readTextFile : Except String String
  readStdin : Except String String
  tootCalls : List (String × String)
  tootResult : Except String Record

/-- A single-record API call: the call happens, then either the record or the
error comes back. -/
def callSingle (name : String) (res : Except String Record) :
    List (String × String) × Option String × Option ResultValue :=
  match res with
  | .ok r => ([(name, "")], none, some (.single r))
  | .error e => ([(name, "")], some e, none)

/-- A list-returning API call followed by the `--keep` truncation
(toot.go status section: reblogged-by / favourited-by). -/
def callListKeep (name : String) (keep : Nat) (res : Except String (List Record)) :
    List (String × String) × Option String × Option ResultValue :=
  match res with
  | .ok rs => ([(name, "")], none, some (.list (applyKeep keep rs)))
  | .error e => ([(name, "")], some e, none)

/-- An API call that produces no result object (`obj` stays nil). -/
def callEmpty (name : String) (res : Option String) :
    List (String × String) × Option String × Option ResultValue :=
  ([(name, "")], res, none)

/-- The switch of `statusSubcommandRunE` (toot.go status section): which API
operation runs, the error it returns, and the result object it leaves in
`obj`.  `none` is the default branch ("statusSubcommand: internal error").
The post branch reads the message text first (text file / stdin), then runs
`toot` (modelled separately; its API events and result come from the
environment). -/
def statusSwitch (subcmd : String) (opt : StatusOpts) (env : StatusEnv) :
    Option (List (String × String) × Option String × Option ResultValue) :=
  if subcmd = "show" then some (callSingle "GetStatus" env.getStatus)
  else if subcmd = "context" then some (callSingle "GetStatusContext" env.getStatusContext)
  else if subcmd = "card" then some (callSingle "GetStatusCard" env.getStatusCard)
  else if subcmd = "reblogged-by" then
    some (callListKeep "GetStatusRebloggedBy" opt.keep env.getStatusRebloggedBy)
  else if subcmd = "favourited-by" then
    some (callListKeep "GetStatusFavouritedBy" opt.keep env.getStatusFavouritedBy)
  else if subcmd = "delete" then some (callEmpty "DeleteStatus" env.deleteStatus)
  else if subcmd = "boost" ∨ subcmd = "unboost" then
    some (if opt.unset ∨ subcmd = "unboost"
      then callEmpty "UnreblogStatus" env.unreblogStatus
      else callEmpty "ReblogStatus" env.reblogStatus)
  else if subcmd = "favourite" ∨ subcmd = "unfavourite" then
    some (if opt.unset ∨ subcmd = "unfavourite"
      then callEmpty "UnfavouriteStatus" env.unfavouriteStatus
      else callEmpty "FavouriteStatus" env.favouriteStatus)
  else if subcmd = "pin" ∨ subcmd = "unpin" then
    some (if opt.unset ∨ subcmd = "unpin"
      then callEmpty "UnpinStatus" env.unpinStatus
      else callEmpty "PinStatus" env.pinStatus)
  else if subcmd = "mute-conversation" then
    some (callSingle "MuteConversation" env.muteConversation)
  else if subcmd = "unmute-conversation" then
    some (callSingle "UnmuteConversation" env.unmuteConversation)
  else if subcmd = "post" then
    some (if opt.textFilePath ≠ "" then
        match env.readTextFile with
        | .error e => ([], some e, none)
        | .ok _ =>
            match env.tootResult with
            | .ok r => (env.tootCalls, none, some (.single r))
            | .error e => (env.tootCalls, some e, none)
      else if opt.stdin then
        match env.readStdin with
        | .error e => ([], some e, none)
        | .ok _ =>
            match env.tootResult with
            | .ok r => (env.tootCalls, none, some (.single r))
            | .error e => (env.tootCalls, some e, none)
      else
        match env.tootResult with
        | .ok r => (env.tootCalls, none, some (.single r))
        | .error e => (env.tootCalls, some e, none))
  else none

/-- `statusSubcommandRunE` (toot.go status section, lines 536-651): run the
switch; a non-nil API error is printed and the process exits 1; a nil `obj`
returns nil (no printer involved); otherwise getPrinter's failure is printed
and exits 1, and the printer's own failure is returned to Execute. -/
def statusSubcommandRunE (subcmd : String) (opt : StatusOpts) (env : StatusEnv)
    (printerRes : Except RenderError Printer) : Trace :=
  match statusSwitch subcmd opt env with
  | none => ⟨[], .ret (some "statusSubcommand: internal error")⟩
  | some (calls, err, obj) =>
    let evs := calls.map (fun c => Event.apiCall c.1 c.2)
    match err with
    | some msg => ⟨evs ++ [.errPrint ("Error: " ++ msg)], .exited 1⟩
    | none =>
      match obj with
      | none => ⟨evs, .ret none⟩
      | some res =>
        match printerRes with
        | .error e => ⟨evs ++ [.errPrint ("Error: " ++ e.message)], .exited 1⟩
        | .ok p =>
          match p res with
          | .error e => ⟨evs, .ret (some e.message)⟩
          | .ok text => ⟨evs ++ [.output text], .ret none⟩

/-- A whole `status` subcommand invocation.  Cobra runs statusCmd's own
PersistentPreRunE (missing status ID check + madonInit; toot.go status
section) — NOT the root's checkOutputFormat hook, which it shadows — then the
subcommand's RunE, then Execute handles a returned error. -/
def runStatusInvocation (subcmd : String) (themes : List String) (rq : RenderRequest)
    (opt : StatusOpts) (env : StatusEnv) : ProcResult :=
  if opt.statusID < 1 ∧ subcmd ≠ "post" then
    execute ⟨[.statusPreRun], .ret (some "missing status ID")⟩
  else if ¬ env.loginOK then
    execute ⟨[.statusPreRun], .ret (some "login failed")⟩
  else
    let t := statusSubcommandRunE subcmd opt env (getPrinterM themes rq)
    execute ⟨Event.statusPreRun :: t.events, t.outcome⟩

/-- A whole `toot` (alias) invocation: a direct child of RootCmd, so the root
`checkOutputFormat` hook applies; its RunE runs madonInit and then delegates
to `statusSubcommandRunE "post"` (toot.go lines 63-70). -/
def runTootInvocation (themes : List String) (rq : RenderRequest)
    (opt : StatusOpts) (env : StatusEnv) : ProcResult :=
  runRootHooked themes rq
    (if ¬ env.loginOK then ⟨[], .ret (some "login failed")⟩
     else statusSubcommandRunE "post" opt env (getPrinterM themes rq))

/-! ## The timeline command (toot.go, timeline section) -/

/-- The `timelineOpts` fields. -/
structure TimelineOpts where
  localOnly : Bool
  onlyMedia : Bool
  limit : Nat
  keep : Nat
  sinceID : String
  maxID : String
deriving DecidableEq, Repr

/-- The API responses available to one timeline invocation. -/
structure TimelineEnv where
  loginOK : Bool
  getTimelines : Except String (List Record)

/-- `timelineRunE` (toot.go timeline section): madonInit, GetTimelines (an
error is printed and exits 1), the `--keep` truncation, getPrinter (failure
printed, exits 1), and printObj (failure returned to Execute). -/
def timelineRunE (opt : TimelineOpts) (env : TimelineEnv)
    (printerRes : Except RenderError Printer) : Trace :=
  if ¬ env.loginOK then ⟨[], .ret (some "login failed")⟩
  else
    match env.getTimelines with
    | .error e => ⟨[.apiCall "GetTimelines" "", .errPrint ("Error: " ++ e)], .exited 1⟩
    | .ok sl =>
      let kept := applyKeep opt.keep sl
      match printerRes with
      | .error e =>
          ⟨[.apiCall "GetTimelines" "", .errPrint ("Error: " ++ e.message)], .exited 1⟩
      | .ok p =>
        match p (.list kept) with
        | .error e => ⟨[.apiCall "GetTimelines" ""], .ret (some e.message)⟩
        | .ok text => ⟨[.apiCall "GetTimelines" "", .output text], .ret none⟩

/-- A whole `timeline` invocation: root hook, then `timelineRunE`. -/
def runTimelineInvocation (themes : List String) (rq : RenderRequest)
    (opt : TimelineOpts) (env : TimelineEnv) : ProcResult :=
  runRootHooked themes rq (timelineRunE opt env (getPrinterM themes rq))

/-! ## The suggestions command (suggestions.go) -/

/-- The `suggestionsOpts` fields. -/
structure SuggestionsOpts where
  accountID : String
  accountIDs : String
  keep : Nat
deriving DecidableEq, Repr

/-- The API responses available to one suggestions invocation.  `splitIDs` is
the result of the `splitIDs` helper on `opt.accountIDs` (the helper itself is
not under `src/`). -/
structure SuggestionsEnv where
  loginOK : Bool
  getSuggestions : Except String (List Record)
  splitIDs : Except Unit (List String)
  deleteSuggestion : String → Option String

/-- `suggestionsGetRunE` (suggestions.go lines 68-112): madonInit,
GetSuggestions, the `--keep` truncation, error exits 1, then print. -/
def suggestionsGetRunE (opt : SuggestionsOpts) (env : SuggestionsEnv)
    (printerRes : Except RenderError Printer) : Trace :=
  if ¬ env.loginOK then ⟨[], .ret (some "login failed")⟩
  else
    match env.getSuggestions with
    | .error e => ⟨[.apiCall "GetSuggestions" "", .errPrint ("Error: " ++ e)], .exited 1⟩
    | .ok accountList =>
      let kept := applyKeep opt.keep accountList
      match printerRes with
      | .error e =>
          ⟨[.apiCall "GetSuggestions" "", .errPrint ("Error: " ++ e.message)], .exited 1⟩
      | .ok p =>
        match p (.list kept) with
        | .error e => ⟨[.apiCall "GetSuggestions" ""], .ret (some e.message)⟩
        | .ok text => ⟨[.apiCall "GetSuggestions" "", .output text], .ret none⟩

/-- A whole `suggestions list` invocation: root hook, then the RunE. -/
def runSuggestionsGetInvocation (themes : List String) (rq : RenderRequest)
    (opt : SuggestionsOpts) (env : SuggestionsEnv) : ProcResult :=
  runRootHooked themes rq (suggestionsGetRunE opt env (getPrinterM themes rq))

/-- The deletion loop of `suggestionsDeleteRunE` (suggestions.go lines
142-147).  Go source:
`for _, id := range ids \x7b if e := gClient.DeleteSuggestion(id); err != nil
\x7b errPrint(...); err = e \x7d \x7d` — the condition tests `err`, the
variable from the surrounding scope (nil on entry to the loop), not the
just-received `e`. -/
def deleteLoop (del : String → Option String) :
    List String → Option String → List Event → Option String × List Event
  | [], err, evs => (err, evs)
  | id :: rest, err, evs =>
      let e := del id
      if err ≠ none then
        deleteLoop del rest e
          (evs ++ [.apiCall "DeleteSuggestion" id,
                   .errPrint ("Cannot remove account " ++ id)])
      else
        deleteLoop del rest err (evs ++ [.apiCall "DeleteSuggestion" id])

/-- `suggestionsDeleteRunE` (suggestions.go lines 114-153): option checks,
splitIDs, --account-id override, madonInit, the deletion loop, then
`os.Exit(1)` if `err` is non-nil, else return nil. -/
def suggestionsDeleteRunE (opt : SuggestionsOpts) (env : SuggestionsEnv) : Trace :=
  if opt.accountID = "" ∧ opt.accountIDs.length = 0 then
    ⟨[], .ret (some "missing account IDs")⟩
  else if opt.accountID ≠ "" ∧ opt.accountIDs.length > 0 then
    ⟨[], .ret (some "incompatible options")⟩
  else
    match env.splitIDs with
    | .error _ => ⟨[], .ret (some "cannot parse account IDs")⟩
    | .ok ids0 =>
      let ids := if opt.accountID ≠ "" then [opt.accountID] else ids0
      if ids.length < 1 then ⟨[], .ret (some "missing account IDs")⟩
      else if ¬ env.loginOK then ⟨[], .ret (some "login failed")⟩
      else
        match deleteLoop env.deleteSuggestion ids none [] with
        | (err, evs) =>
          match err with
          | some _ => ⟨evs, .exited 1⟩
          | none => ⟨evs, .ret none⟩

/-- A whole `suggestions delete` invocation: root hook, then the RunE. -/
def runSuggestionsDeleteInvocation (themes : List String) (rq : RenderRequest)
    (opt : SuggestionsOpts) (env : SuggestionsEnv) : ProcResult :=
  runRootHooked themes rq (suggestionsDeleteRunE opt env)

/-! ## The toot function (toot.go lines 73-190) -/

/-- The parameters handed to `gClient.PostStatus` (madon.PostStatusParams). -/
structure PostStatusParams where
  text : String
  inReplyTo : String
  mediaIDs : List String
  sensitive : Bool
  spoilerText : String
  visibility : String
deriving DecidableEq, Repr

/-- The `statusOpts` fields consumed by `toot`. -/
structure TootOpts where
  visibility : String
  sensitive : Bool
  spoiler : String
  inReplyToID : String
  mediaIDs : String
  mediaFilePath : String
  addMentions : Bool
  sameVisibility : Bool
  hasReplyTo : Bool
deriving DecidableEq, Repr

/-- The original status fetched when replying. -/
structure OrigStatus where
  visibility : String
  acct : String
  mentions : List String
deriving DecidableEq, Repr

/-- Everything outside `toot` itself that its run depends on: the
`default_visibility` configuration value, the Changed state of the two
`--visibility` flag registrations (tootAliasFlags and statusPostFlags), and
the collaborator calls. -/
structure TootEnv where
  defaultVisibility : String
  aliasVisChanged : Bool
  postVisChanged : Bool
  splitIDs : Except Unit (List String)
  getStatus : Except String OrigStatus
  getCurrentAccount : Except String String
  uploadFile : Except String String

/-- `mentionsList` (toot.go lines 169-190): mention the sender unless they are
the connected user, then every mentioned account except the connected user,
joined with spaces and followed by one space when non-empty. -/
def mentionsList (s : OrigStatus) (me : String) : String :=
  let ms := (if s.acct ≠ me then ["@" ++ s.acct] else []) ++
    (s.mentions.filter (fun m => m ≠ me)).map (fun m => "@" ++ m)
  let joined := String.intercalate " " ms
  if joined.length > 0 then joined ++ " " else ""

/-- The tail of `toot` (toot.go lines 143-167): optional media-file upload,
then the PostStatus parameters. -/
def tootFinish (opt : TootOpts) (env : TootEnv) (text : String)
    (ids0 : List String) (vis : String) : Except String PostStatusParams :=
  if opt.mediaFilePath ≠ "" then
    if ids0.length > 3 then .error "too many media attachments"
    else
      match env.uploadFile with
      | .error e => .error ("cannot attach media file: " ++ e)
      | .ok fileMediaID =>
          let ids := if fileMediaID ≠ "" then ids0 ++ [fileMediaID] else ids0
          .ok ⟨text, opt.inReplyToID, ids, opt.sensitive, opt.spoiler, vis⟩
  else .ok ⟨text, opt.inReplyToID, ids0, opt.sensitive, opt.spoiler, vis⟩

/-- The working visibility after consulting the configuration (toot.go lines
76-81): an empty `--visibility` takes the non-empty `default_visibility`
configuration value. -/
def tootVis0 (opt : TootOpts) (env : TootEnv) : String :=
  if opt.visibility = "" then
    (if env.defaultVisibility ≠ "" then env.defaultVisibility else opt.visibility)
  else opt.visibility

/-- The preserve-visibility condition (toot.go lines 111-117): the
--same-visibility option is set and neither registration of the --visibility
flag was used on the command line. -/
def tootPreserveVis (opt : TootOpts) (env : TootEnv) : Bool :=
  opt.sameVisibility && !env.aliasVisChanged && !env.postVisChanged

/-- `toot` (toot.go lines 73-167): default visibility from configuration,
visibility validation, reply-to argument check, media-ID parsing, empty-toot
check, reply handling (--same-visibility downgrades public to unlisted unless
a --visibility flag was explicitly set; --add-mentions prepends the mention
list), media upload, and finally the PostStatus parameters. -/
def toot (opt : TootOpts) (env : TootEnv) (tootText : String) :
    Except String PostStatusParams :=
  if ¬ (tootVis0 opt env ∈ ["", "direct", "private", "unlisted", "public"]) then
    .error ("invalid visibility argument value '" ++ tootVis0 opt env ++ "'")
  else if opt.hasReplyTo ∧ opt.inReplyToID = "" then
    .error "invalid in-reply-to argument value"
  else
    match env.splitIDs with
    | .error _ => .error "cannot parse media IDs"
    | .ok ids0 =>
      if tootText = "" ∧ ids0 = [] ∧ opt.spoiler = "" ∧ opt.mediaFilePath = "" then
        .error "toot is empty"
      else if opt.inReplyToID ≠ "" then
        if tootPreserveVis opt env || opt.addMentions then
          match env.getStatus with
          | .error e => .error ("cannot get original message: " ++ e)
          | .ok orig =>
            let vis1 := if tootPreserveVis opt env then
                (if orig.visibility = "public" then "unlisted" else orig.visibility)
              else tootVis0 opt env
            if opt.addMentions then
              match env.getCurrentAccount with
              | .error e => .error ("cannot check account details: " ++ e)
              | .ok me => tootFinish opt env (mentionsList orig me ++ tootText) ids0 vis1
            else tootFinish opt env tootText ids0 vis1
        else tootFinish opt env tootText ids0 (tootVis0 opt env)
      else tootFinish opt env tootText ids0 (tootVis0 opt env)

/-! ## Flags and shell completion (root.go) -/

/-- One pflag registration: name, one-letter shorthand, registered default
value, usage string. -/
structure FlagDef where
  name : String
  shorthand : String
  defValue : String
  usage : String
deriving DecidableEq, Repr

/-- The persistent flags registered on RootCmd (root.go init, lines 132-148).
Booleans are recorded with their textual default. -/
def rootPersistentFlags : List FlagDef := [
  ⟨"config", "", "", "config file (default is $HOME/.config/madonctl/madonctl.yaml)"⟩,
  ⟨"verbose", "v", "false", "Verbose mode"⟩,
  ⟨"instance", "i", "", "Mastodon instance"⟩,
  ⟨"login", "L", "", "Instance user login"⟩,
  ⟨"password", "P", "", "Instance user password"⟩,
  ⟨"token", "t", "", "User token"⟩,
  ⟨"output", "o", "", "Output format (plain|json|yaml|template|theme)"⟩,
  ⟨"template", "", "", "Go template (for output=template)"⟩,
  ⟨"template-file", "", "", "Go template file (for output=template)"⟩,
  ⟨"theme", "", "", "Theme name (for output=theme)"⟩,
  ⟨"color", "", "", "Color mode (auto|on|off; for output=template)"⟩]

/-- Looks a persistent flag up by name. -/
def lookupFlag (name : String) : Option FlagDef :=
  rootPersistentFlags.find? (fun f => f.name == name)

/-- Where a bash completion helper gets its candidate completions. -/
inductive ComplSource where
  | fixed (candidates : List String)
  | fromCommand (cmdline : String)
deriving DecidableEq, Repr

/-- The bash completion helper functions of `shellComplFunc` (root.go lines
40-57): visibility, output and color complete from fixed word lists;
`__madonctl_theme` obtains its candidates by running
`madonctl config themes`. -/
def shellComplFuncs : List (String × ComplSource) := [
  ("__madonctl_visibility", .fixed ["direct", "private", "unlisted", "public"]),
  ("__madonctl_output", .fixed ["plain", "json", "yaml", "template", "theme"]),
  ("__madonctl_color", .fixed ["auto", "on", "off"]),
  ("__madonctl_theme", .fromCommand "madonctl config themes")]

/-- The flag-completion annotations (root.go lines 158-168): flag name ↦ the
bash function registered through cobra.BashCompCustom. -/
def flagComplAnnotations : List (String × String) := [
  ("output", "__madonctl_output"),
  ("color", "__madonctl_color"),
  ("theme", "__madonctl_theme")]

/-- Inserts a string into an already sorted list, keeping it sorted. -/
def insertSorted (s : String) : List String → List String
  | [] => [s]
  | t :: ts => if s ≤ t then s :: t :: ts else t :: insertSorted s ts

/-- Insertion sort for strings. -/
def sortStrings : List String → List String
  | [] => []
  | s :: ts => insertSorted s (sortStrings ts)

/-- Modelled from the spec: `ListThemeNames` of the Theme Registry (§4.5) —
the stable, sorted, duplicate-free enumeration of the loaded theme names. -/
def listThemeNames (loaded : List String) : List String :=
  (sortStrings loaded).dedup

/-- Modelled from the spec: the `config themes` companion command (§6, not
under src/) — it prints exactly the theme-name enumeration. -/
def configThemesOutput (loaded : List String) : List String :=
  listThemeNames loaded

/-! ## Error reporting sites (claim C4)

Where a rendering error can surface, from the source: the RootCmd hook and
any error returned from a RunE reach `Execute` (root.go lines 121-126), which
prints `Error: ...` and exits -1; a getPrinter failure inside a RunE is
printed and exits 1 (toot.go status section lines 645-650, suggestions.go
lines 106-111, and the timeline section). -/

/-- A place where a rendering error surfaces during an invocation. -/
inductive ErrorSite where
  | rootHook
  | runEReturn
  | getPrinterCall
deriving DecidableEq, Repr

/-- What the user observes when an error is reported. -/
structure Report where
  printed : String
  exitCode : Int
deriving DecidableEq, Repr

/-- How each site reports a rendering error: through `Execute` (message +
exit -1) for the hook and for RunE-returned errors, and through
`errPrint` + `os.Exit(1)` at the getPrinter call sites. -/
def reportAt : ErrorSite → RenderError → Report
  | .rootHook, e => ⟨"Error: " ++ e.message, -1⟩
  | .runEReturn, e => ⟨"Error: " ++ e.message, -1⟩
  | .getPrinterCall, e => ⟨"Error: " ++ e.message, 1⟩

/-- Record-level json encoding (the kind tag is presentation metadata threaded
by the adapter from the calling subcommand, spec §4.2; it is not serialized). -/
def encodeJsonRecord (r : Record) : List JTok := encodeJsonV (.vrec r.fields)

/-- Record-level json decoding; the kind tag is re-attached from its static
origin (spec §4.2). -/
def decodeJsonRecord (kind : String) (toks : List JTok) : Option Record :=
  match decodeJsonV toks with
  | some (.vrec fs) => some ⟨kind, fs⟩
  | _ => none

/-- Record-level yaml encoding. -/
def encodeYamlRecord (r : Record) : List YTok := encodeYamlV (.vrec r.fields)

/-- Record-level yaml decoding. -/
def decodeYamlRecord (kind : String) (toks : List YTok) : Option Record :=
  match decodeYamlV toks with
  | some (.vrec fs) => some ⟨kind, fs⟩
  | _ => none

/-- A concrete toot-option fixture: a reply to status 42 with
--same-visibility and no explicit --visibility. -/
def tootOptW : TootOpts := ⟨"", false, "", "42", "", "", false, true, true⟩

/-- A concrete toot environment: the original status is public. -/
def tootEnvW : TootEnv :=
  ⟨"", false, false, .ok [], .ok ⟨"public", "alice", []⟩, .ok "me", .ok ""⟩

/-- A concrete status-command environment: every API call succeeds, the
result-less operations return no error. -/
def statusEnvW : StatusEnv :=
  ⟨true, .ok ⟨"status", .nil⟩, .ok ⟨"context", .nil⟩, .ok ⟨"card", .nil⟩,
   .ok [], .ok [], none, none, none, none, none, none, none,
   .ok ⟨"status", .nil⟩, .ok ⟨"status", .nil⟩, .ok "", .ok "",
   [("PostStatus", "")], .ok ⟨"status", .nil⟩⟩

/-- A process run that failed fast: non-zero exit with no API call. -/
def noCallFailFast (p : ProcResult) : Prop :=
  p.exitCode ≠ 0 ∧ hasApiCall p.events = false

/-- Claim C1 as stated: with an invalid --output value, every subcommand —
including all status subcommands — exits non-zero before any API call. -/
def invalidFormatFailsFastEverywhere : Prop :=
  ∀ (themes : List String) (rq : RenderRequest), ¬ (rq.format ∈ "" :: validFormats) →
    (∀ opt env, noCallFailFast (runTimelineInvocation themes rq opt env)) ∧
    (∀ opt env, noCallFailFast (runSuggestionsGetInvocation themes rq opt env)) ∧
    (∀ opt env, noCallFailFast (runSuggestionsDeleteInvocation themes rq opt env)) ∧
    (∀ opt env, noCallFailFast (runTootInvocation themes rq opt env)) ∧
    (∀ subcmd opt env, noCallFailFast (runStatusInvocation subcmd themes rq opt env))

theorem encodeJsonV_head (v : Value) :
    ∃ t ts, encodeJsonV v = t :: ts ∧ t ≠ JTok.rbrack := by
  cases v with
  | str s => exact ⟨_, _, rfl, by simp⟩
  | num n => exact ⟨_, _, rfl, by simp⟩
  | boolean b => exact ⟨_, _, rfl, by simp⟩
  | vlist vs => cases vs <;> exact ⟨_, _, rfl, by simp⟩
  | vrec fs => cases fs <;> exact ⟨_, _, rfl, by simp⟩

theorem encodeJsonV_length_pos (v : Value) : 0 < (encodeJsonV v).length := by
  obtain ⟨t, ts, het, -⟩ := encodeJsonV_head v
  simp [het]

theorem parseJsonV_lbrack (fuel : Nat) (v : Value) (more : List JTok) :
    parseJsonV (fuel + 1) (JTok.lbrack :: (encodeJsonV v ++ more)) =
      (match parseJsonV fuel (encodeJsonV v ++ more) with
       | some (w, rest1) =>
           (match parseJsonItems fuel rest1 with
            | some (tl, rest2) => some (Value.vlist (.cons w tl), rest2)
            | none => none)
       | none => none) := by
  obtain ⟨t, ts, het, hne⟩ := encodeJsonV_head v
  rw [het]
  cases t <;> simp_all [parseJsonV]

theorem parseJson_encodeJson (fuel : Nat) :
    (∀ (v : Value) (rest : List JTok), (encodeJsonV v).length ≤ fuel →
        parseJsonV fuel (encodeJsonV v ++ rest) = some (v, rest)) ∧
    (∀ (vs : ValueList) (rest : List JTok), (encodeJsonItems vs).length + 1 ≤ fuel →
        parseJsonItems fuel (encodeJsonItems vs ++ JTok.rbrack :: rest) = some (vs, rest)) ∧
    (∀ (fs : Fields) (rest : List JTok), (encodeJsonFields fs).length + 1 ≤ fuel →
        parseJsonFields fuel (encodeJsonFields fs ++ JTok.rbrace :: rest) = some (fs, rest)) := by
  induction fuel with
  | zero =>
      refine ⟨fun v rest h => ?_, fun vs rest h => ?_, fun fs rest h => ?_⟩
      · have := encodeJsonV_length_pos v
        omega
      · omega
      · omega
  | succ fuel ih =>
      obtain ⟨ihV, ihI, ihF⟩ := ih
      refine ⟨fun v rest h => ?_, fun vs rest h => ?_, fun fs rest h => ?_⟩
      · cases v with
        | str s => simp [encodeJsonV, parseJsonV]
        | num n => simp [encodeJsonV, parseJsonV]
        | boolean b => simp [encodeJsonV, parseJsonV]
        | vlist vs =>
            cases vs with
            | nil => simp [encodeJsonV, parseJsonV]
            | cons v tl =>
                simp only [encodeJsonV, List.length_cons, List.length_append] at h
                simp only [encodeJsonV, List.cons_append, List.append_assoc,
                  List.singleton_append, List.nil_append]
                rw [parseJsonV_lbrack fuel v (encodeJsonItems tl ++ JTok.rbrack :: rest)]
                simp [ihV v _ (by omega), ihI tl rest (by omega)]
        | vrec fs =>
            cases fs with
            | nil => simp [encodeJsonV, parseJsonV]
            | cons k v tl =>
                simp only [encodeJsonV, List.length_cons, List.length_append] at h
                simp only [encodeJsonV, List.cons_append, List.append_assoc,
                  List.singleton_append, List.nil_append]
                rw [show parseJsonV (fuel + 1)
                      (JTok.lbrace :: JTok.jstr k :: JTok.colon ::
                        (encodeJsonV v ++ (encodeJsonFields tl ++ JTok.rbrace :: rest))) =
                      (match parseJsonV fuel
                          (encodeJsonV v ++ (encodeJsonFields tl ++ JTok.rbrace :: rest)) with
                       | some (w, rest1) =>
                           (match parseJsonFields fuel rest1 with
                            | some (tl2, rest2) => some (Value.vrec (.cons k w tl2), rest2)
                            | none => none)
                       | none => none) from by simp [parseJsonV]]
                simp [ihV v _ (by omega), ihF tl rest (by omega)]
      · cases vs with
        | nil => simp [encodeJsonItems, parseJsonItems]
        | cons v tl =>
            simp only [encodeJsonItems, List.length_cons, List.length_append] at h
            simp only [encodeJsonItems, List.cons_append, List.append_assoc,
              List.nil_append]
            rw [show parseJsonItems (fuel + 1)
                  (JTok.comma :: (encodeJsonV v ++ (encodeJsonItems tl ++ JTok.rbrack :: rest))) =
                  (match parseJsonV fuel
                      (encodeJsonV v ++ (encodeJsonItems tl ++ JTok.rbrack :: rest)) with
                   | some (w, rest1) =>
                       (match parseJsonItems fuel rest1 with
                        | some (tl2, rest2) => some (ValueList.cons w tl2, rest2)
                        | none => none)
                   | none => none) from by simp [parseJsonItems]]
            simp [ihV v _ (by omega), ihI tl rest (by omega)]
      · cases fs with
        | nil => simp [encodeJsonFields, parseJsonFields]
        | cons k v tl =>
            simp only [encodeJsonFields, List.length_cons, List.length_append] at h
            simp only [encodeJsonFields, List.cons_append, List.append_assoc,
              List.nil_append]
            rw [show parseJsonFields (fuel + 1)
                  (JTok.comma :: JTok.jstr k :: JTok.colon ::
                    (encodeJsonV v ++ (encodeJsonFields tl ++ JTok.rbrace :: rest))) =
                  (match parseJsonV fuel
                      (encodeJsonV v ++ (encodeJsonFields tl ++ JTok.rbrace :: rest)) with
                   | some (w, rest1) =>
                       (match parseJsonFields fuel rest1 with
                        | some (tl2, rest2) => some (Fields.cons k w tl2, rest2)
                        | none => none)
                   | none => none) from by simp [parseJsonFields]]
            simp [ihV v _ (by omega), ihF tl rest (by omega)]

theorem decodeJsonV_encodeJsonV (v : Value) : decodeJsonV (encodeJsonV v) = some v := by
  have h := (parseJson_encodeJson (encodeJsonV v).length).1 v [] (le_refl _)
  rw [List.append_nil] at h
  simp [decodeJsonV, h]

theorem encodeYamlV_length_pos (v : Value) : 0 < (encodeYamlV v).length := by
  cases v <;> simp [encodeYamlV]

theorem parseYaml_encodeYaml (fuel : Nat) :
    (∀ (v : Value) (rest : List YTok), (encodeYamlV v).length ≤ fuel →
        parseYamlV fuel (encodeYamlV v ++ rest) = some (v, rest)) ∧
    (∀ (vs : ValueList) (rest : List YTok), (encodeYamlItems vs).length + 1 ≤ fuel →
        parseYamlItems fuel (encodeYamlItems vs ++ YTok.yseqEnd :: rest) = some (vs, rest)) ∧
    (∀ (fs : Fields) (rest : List YTok), (encodeYamlFields fs).length + 1 ≤ fuel →
        parseYamlFields fuel (encodeYamlFields fs ++ YTok.ymapEnd :: rest) = some (fs, rest)) := by
  induction fuel with
  | zero =>
      refine ⟨fun v rest h => ?_, fun vs rest h => ?_, fun fs rest h => ?_⟩
      · have := encodeYamlV_length_pos v
        omega
      · omega
      · omega
  | succ fuel ih =>
      obtain ⟨ihV, ihI, ihF⟩ := ih
      refine ⟨fun v rest h => ?_, fun vs rest h => ?_, fun fs rest h => ?_⟩
      · cases v with
        | str s => simp [encodeYamlV, parseYamlV]
        | num n => simp [encodeYamlV, parseYamlV]
        | boolean b => simp [encodeYamlV, parseYamlV]
        | vlist vs =>
            simp only [encodeYamlV, List.length_cons, List.length_append,
              List.length_singleton] at h
            simp only [encodeYamlV, List.cons_append, List.append_assoc,
              List.singleton_append, List.nil_append]
            simp [parseYamlV, ihI vs rest (by omega)]
        | vrec fs =>
            simp only [encodeYamlV, List.length_cons, List.length_append,
              List.length_singleton] at h
            simp only [encodeYamlV, List.cons_append, List.append_assoc,
              List.singleton_append, List.nil_append]
            simp [parseYamlV, ihF fs rest (by omega)]
      · cases vs with
        | nil => simp [encodeYamlItems, parseYamlItems]
        | cons v tl =>
            simp only [encodeYamlItems, List.length_cons, List.length_append] at h
            simp only [encodeYamlItems, List.cons_append, List.append_assoc,
              List.nil_append]
            simp [parseYamlItems, ihV v _ (by omega), ihI tl rest (by omega)]
      · cases fs with
        | nil => simp [encodeYamlFields, parseYamlFields]
        | cons k v tl =>
            simp only [encodeYamlFields, List.length_cons, List.length_append] at h
            simp only [encodeYamlFields, List.cons_append, List.append_assoc,
              List.nil_append]
            simp [parseYamlFields, ihV v _ (by omega), ihF tl rest (by omega)]

theorem decodeYamlV_encodeYamlV (v : Value) : decodeYamlV (encodeYamlV v) = some v := by
  have h := (parseYaml_encodeYaml (encodeYamlV v).length).1 v [] (le_refl _)
  rw [List.append_nil] at h
  simp [decodeYamlV, h]

/-- No rendering error has an empty message (spec §7: every error carries a
human-readable message). -/
theorem RenderError.message_nonempty (e : RenderError) : e.message ≠ "" := by
  cases e with
  | invalidFormat fmt =>
      intro h
      have h2 := congrArg String.length h
      simp [RenderError.message, String.length_append] at h2
      exact (by decide : ¬ ("'".length = 0)) h2.2
  | missingTemplate => exact (by decide)
  | ambiguousTemplate => exact (by decide)
  | unknownTheme name known =>
      intro h
      have h2 := congrArg String.length h
      simp [RenderError.message, String.length_append] at h2
      exact (by decide : ¬ (")".length = 0)) h2.2
  | noTemplateForKind kind =>
      intro h
      have h2 := congrArg String.length h
      simp [RenderError.message, String.length_append] at h2
      exact (by decide : ¬ ("'".length = 0)) h2.2
  | templateParseError source pos =>
      intro h
      have h2 := congrArg String.length h
      simp [RenderError.message, String.length_append] at h2
      exact (by decide : ¬ ("' at position ".length = 0)) h2.1.2
  | templateEvalError what =>
      intro h
      have h2 := congrArg String.length h
      simp [RenderError.message, String.length_append] at h2
      exact (by decide : ¬ ("template evaluation error: ".length = 0)) h2.1
  | encodeError => exact (by decide)

/-! ## Claim theorems -/

/-- C10: for every fetched result list and every `--keep` value K, if K > 0
and the list is longer than K, exactly the first K elements are kept in their
original order; if K = 0 or the list has at most K elements, the list passes
through unchanged.  `applyKeep` is the truncation applied verbatim at all
three sites (timelineRunE, statusSubcommandRunE reblogged-by/favourited-by,
suggestionsGetRunE). -/
theorem keep_truncation {α : Type} (keep : Nat) (l : List α) :
    (keep > 0 → l.length > keep → applyKeep keep l = l.take keep) ∧
    (keep = 0 ∨ l.length ≤ keep → applyKeep keep l = l) := by
  constructor
  · intro h1 h2
    simp [applyKeep, h1, h2]
  · intro h
    have hc : ¬ (keep > 0 ∧ l.length > keep) := by omega
    simp [applyKeep, hc]

/-- Witness for `keep_truncation` at concrete inputs. -/
theorem keep_truncation_witness :
    applyKeep 2 [10, 20, 30] = [10, 20] ∧ applyKeep 0 [10, 20, 30] = [10, 20, 30] := by
  constructor
  · have h := (keep_truncation 2 [10, 20, 30]).1 (by decide) (by decide)
    simpa using h
  · exact (keep_truncation 0 [10, 20, 30]).2 (Or.inl rfl)

/-- C6: for every record R, encoding with the json serializer and decoding
yields a record equal to R, and likewise for the yaml serializer; the same
holds for any value.  Key order is the declaration order by construction of
the encoders. -/
theorem serializer_round_trip (r : Record) (v : Value) :
    decodeJsonRecord r.kind (encodeJsonRecord r) = some r ∧
    decodeYamlRecord r.kind (encodeYamlRecord r) = some r ∧
    decodeJsonV (encodeJsonV v) = some v ∧
    decodeYamlV (encodeYamlV v) = some v := by
  refine ⟨?_, ?_, decodeJsonV_encodeJsonV v, decodeYamlV_encodeYamlV v⟩
  · simp [decodeJsonRecord, encodeJsonRecord, decodeJsonV_encodeJsonV (.vrec r.fields)]
  · simp [decodeYamlRecord, encodeYamlRecord, decodeYamlV_encodeYamlV (.vrec r.fields)]

/-- C5: the dispatcher renders every element of a List independently with the
same per-record rendering and concatenates in input order with a single
separating line break; for three records the output is exactly three blocks
in input order; with format plain the per-record rendering is the plain
serializer. -/
theorem list_rendering (rq : RenderRequest) (r1 r2 r3 : Record)
    (f : Record → String) (r : Record) (rs : List Record) (hrs : rs ≠ []) :
    printerFor rq (.list [r1, r2, r3]) =
      .ok (renderOneFor rq r1 ++ "\n" ++ renderOneFor rq r2 ++ "\n" ++ renderOneFor rq r3) ∧
    renderList f (r :: rs) = f r ++ "\n" ++ renderList f rs ∧
    renderOneFor ⟨"plain", none, none, none, ""⟩ r = renderPlainRecord r := by
  refine ⟨?_, ?_, ?_⟩
  · simp [printerFor, renderResult, renderList, String.append_assoc]
  · cases rs with
    | nil => exact absurd rfl hrs
    | cons a l => rfl
  · rfl

/-- Witness for `list_rendering` at concrete inputs. -/
theorem list_rendering_witness :
    renderList Record.kind [⟨"a", .nil⟩, ⟨"b", .nil⟩] = "a" ++ "\n" ++ "b" := by
  have h := (list_rendering ⟨"plain", none, none, none, ""⟩ ⟨"a", .nil⟩ ⟨"a", .nil⟩
    ⟨"a", .nil⟩ Record.kind ⟨"a", .nil⟩ [⟨"b", .nil⟩] (by decide)).2.1
  exact h.trans rfl

/-- C3: the CLI exposes the persistent output flags --output, --template,
--template-file, --theme and --color with the shorthands, usage strings and
registered defaults of root.go; the accepted value sets are the closed format
and color-mode lists; the registered default (the empty string, i.e. the flag
was not given) resolves to plain respectively auto. -/
theorem cli_flags_registered :
    lookupFlag "output" =
      some ⟨"output", "o", "", "Output format (plain|json|yaml|template|theme)"⟩ ∧
    lookupFlag "template" = some ⟨"template", "", "", "Go template (for output=template)"⟩ ∧
    lookupFlag "template-file" =
      some ⟨"template-file", "", "", "Go template file (for output=template)"⟩ ∧
    lookupFlag "theme" = some ⟨"theme", "", "", "Theme name (for output=theme)"⟩ ∧
    lookupFlag "color" =
      some ⟨"color", "", "", "Color mode (auto|on|off; for output=template)"⟩ ∧
    validFormats = ["plain", "json", "yaml", "template", "theme"] ∧
    validColorModes = ["auto", "on", "off"] ∧
    effectiveFormat "" = "plain" ∧
    effectiveColorMode "" = "auto" :=
  ⟨rfl, rfl, rfl, rfl, rfl, rfl, rfl, rfl, rfl⟩

/-- C7: the completion annotation registered for the --theme flag names the
`__madonctl_theme` bash function, that function obtains its candidates by
running `madonctl config themes`, and the `config themes` companion command
exposes exactly the theme-name enumeration. -/
theorem theme_completion_wiring :
    List.lookup "theme" flagComplAnnotations = some "__madonctl_theme" ∧
    List.lookup "__madonctl_theme" shellComplFuncs =
      some (.fromCommand "madonctl config themes") ∧
    (∀ loaded, configThemesOutput loaded = listThemeNames loaded) :=
  ⟨rfl, rfl, fun _ => rfl⟩

/-- C4: every rendering error that surfaces at one of the reporting sites is
printed as an `Error: ...` line carrying its non-empty human-readable message
and makes the process exit non-zero. -/
theorem rendering_errors_reported (e : RenderError) (site : ErrorSite) :
    (reportAt site e).printed = "Error: " ++ e.message ∧
    e.message ≠ "" ∧
    (reportAt site e).exitCode ≠ 0 := by
  refine ⟨by cases site <;> rfl, RenderError.message_nonempty e, ?_⟩
  cases site <;> simp [reportAt]

/-- A trace made only of API-call events contains no rendered output. -/
theorem hasOutput_map_apiCall (calls : List (String × String)) :
    hasOutput (calls.map (fun c => Event.apiCall c.1 c.2)) = false := by
  simp only [hasOutput, List.any_eq_false]
  intro c hmem
  obtain ⟨p, -, rfl⟩ := List.mem_map.mp hmem
  simp [Event.isOutput]

/-- The deletion loop with a nil `err` never fires its error branch: it calls
DeleteSuggestion once per ID in order, prints nothing, and keeps `err` nil. -/
theorem deleteLoop_err_none (del : String → Option String) (ids : List String)
    (evs : List Event) :
    deleteLoop del ids none evs =
      (none, evs ++ ids.map (Event.apiCall "DeleteSuggestion")) := by
  induction ids generalizing evs with
  | nil => simp [deleteLoop]
  | cons id rest ih => simp [deleteLoop, ih]

/-- C8: when `suggestions delete` gets past its option checks with parsed IDs
and a successful login, DeleteSuggestion is called once per effective ID in
order, nothing is printed, and the RunE returns nil — regardless of the
per-ID results `env.deleteSuggestion`; with any request that passes the root
hook, the process then exits 0. -/
theorem suggestions_delete_ignores_api_errors (opt : SuggestionsOpts)
    (env : SuggestionsEnv) (ids0 : List String)
    (hsplit : env.splitIDs = .ok ids0)
    (hlogin : env.loginOK = true)
    (hgiven : ¬ (opt.accountID = "" ∧ opt.accountIDs.length = 0))
    (hcompat : ¬ (opt.accountID ≠ "" ∧ opt.accountIDs.length > 0))
    (hids : (if opt.accountID ≠ "" then [opt.accountID] else ids0) ≠ []) :
    suggestionsDeleteRunE opt env =
      ⟨(if opt.accountID ≠ "" then [opt.accountID] else ids0).map
        (Event.apiCall "DeleteSuggestion"), .ret none⟩ ∧
    (∀ themes rq, checkOutputFormatM themes rq = none →
      (runSuggestionsDeleteInvocation themes rq opt env).exitCode = 0) := by
  have hrun : suggestionsDeleteRunE opt env =
      ⟨(if opt.accountID ≠ "" then [opt.accountID] else ids0).map
        (Event.apiCall "DeleteSuggestion"), .ret none⟩ := by
    have hlen : ¬ ((if opt.accountID ≠ "" then [opt.accountID] else ids0).length < 1) := by
      cases hc : (if opt.accountID ≠ "" then [opt.accountID] else ids0) with
      | nil => exact absurd hc hids
      | cons a l => simp [hc]
    unfold suggestionsDeleteRunE
    rw [if_neg hgiven, if_neg hcompat, hsplit]
    simp only [hlen, if_false, hlogin]
    rw [deleteLoop_err_none]
    simp
  refine ⟨hrun, fun themes rq hok => ?_⟩
  simp [runSuggestionsDeleteInvocation, runRootHooked, hok, hrun, execute]

/-- Witness for `suggestions_delete_ignores_api_errors`: two IDs, the API
failing on every deletion — both deletions are attempted, nothing is printed,
and the RunE still returns nil. -/
theorem suggestions_delete_ignores_api_errors_witness :
    suggestionsDeleteRunE ⟨"", "12,34", 0⟩
        ⟨true, .ok [], .ok ["12", "34"], fun _ => some "API error"⟩ =
      ⟨[.apiCall "DeleteSuggestion" "12", .apiCall "DeleteSuggestion" "34"],
        .ret none⟩ := by
  have h := (suggestions_delete_ignores_api_errors ⟨"", "12,34", 0⟩
    ⟨true, .ok [], .ok ["12", "34"], fun _ => some "API error"⟩ ["12", "34"]
    rfl rfl (by decide) (by decide) (by decide)).1
  exact h.trans rfl

/-- Whatever `tootFinish` does about media upload, the parameters it builds
carry exactly the visibility it was given. -/
theorem tootFinish_visibility (opt : TootOpts) (env : TootEnv) (text : String)
    (ids0 : List String) (vis : String) (p : PostStatusParams)
    (h : tootFinish opt env text ids0 vis = .ok p) : p.visibility = vis := by
  unfold tootFinish at h
  split at h
  · split at h
    · exact absurd h (by simp)
    · cases henv : env.uploadFile with
      | error e => rw [henv] at h; exact absurd h (by simp)
      | ok fid =>
          rw [henv] at h
          simp only [Except.ok.injEq] at h
          rw [← h]
  · simp only [Except.ok.injEq] at h
    rw [← h]

/-- C9: a reply posted with --same-visibility and with no --visibility flag
explicitly set inherits the original status's visibility, except that public
is downgraded to unlisted; in particular the reply is never posted public. -/
theorem toot_same_visibility_reply (opt : TootOpts) (env : TootEnv)
    (text : String) (orig : OrigStatus) (p : PostStatusParams)
    (hreply : opt.inReplyToID ≠ "")
    (hsame : opt.sameVisibility = true)
    (ha : env.aliasVisChanged = false)
    (hp : env.postVisChanged = false)
    (horig : env.getStatus = .ok orig)
    (hok : toot opt env text = .ok p) :
    p.visibility = (if orig.visibility = "public" then "unlisted" else orig.visibility) ∧
    p.visibility ≠ "public" := by
  have hpres : tootPreserveVis opt env = true := by
    simp [tootPreserveVis, hsame, ha, hp]
  have hv : p.visibility =
      (if orig.visibility = "public" then "unlisted" else orig.visibility) := by
    unfold toot at hok
    split at hok
    · exact absurd hok (by simp)
    · split at hok
      · exact absurd hok (by simp)
      · cases hsp : env.splitIDs with
        | error e => rw [hsp] at hok; exact absurd hok (by simp)
        | ok ids0 =>
            rw [hsp] at hok
            split at hok
            · exact absurd hok (by simp)
            · rw [horig, hpres] at hok
              simp only [Bool.true_or, if_true] at hok
              split at hok
              · exact absurd hok (by simp)
              · split at hok
                · cases hacct : env.getCurrentAccount with
                  | error e => rw [hacct] at hok; exact absurd hok (by simp)
                  | ok me =>
                      rw [hacct] at hok
                      exact tootFinish_visibility opt env _ _ _ p hok
                · exact tootFinish_visibility opt env _ _ _ p hok
  refine ⟨hv, ?_⟩
  by_cases hc : orig.visibility = "public"
  · rw [hv, if_pos hc]
    decide
  · rw [hv, if_neg hc]
    exact hc

/-- Witness for `toot_same_visibility_reply`: replying to a public status with
--same-visibility posts unlisted. -/
theorem toot_same_visibility_reply_witness :
    toot tootOptW tootEnvW "hello" = .ok ⟨"hello", "42", [], false, "", "unlisted"⟩ ∧
    (⟨"hello", "42", [], false, "", "unlisted"⟩ : PostStatusParams).visibility =
      (if ("public" : String) = "public" then "unlisted" else "public") ∧
    (⟨"hello", "42", [], false, "", "unlisted"⟩ : PostStatusParams).visibility ≠ "public" := by
  refine ⟨rfl, ?_, ?_⟩
  · exact (toot_same_visibility_reply tootOptW tootEnvW "hello" ⟨"public", "alice", []⟩
      ⟨"hello", "42", [], false, "", "unlisted"⟩ (by decide) rfl rfl rfl rfl rfl).1
  · exact (toot_same_visibility_reply tootOptW tootEnvW "hello" ⟨"public", "alice", []⟩
      ⟨"hello", "42", [], false, "", "unlisted"⟩ (by decide) rfl rfl rfl rfl rfl).2

/-- Traces concatenate their output flags. -/
theorem hasOutput_append (a b : List Event) :
    hasOutput (a ++ b) = (hasOutput a || hasOutput b) :=
  List.any_append

/-- C2: a status subcommand whose API operation yields no result object
(delete, boost/unboost, favourite/unfavourite, pin/unpin) and succeeds
renders nothing and exits 0, whatever the output request was. -/
theorem empty_result_exits_zero (subcmd : String) (themes : List String)
    (rq : RenderRequest) (opt : StatusOpts) (env : StatusEnv)
    (hsub : subcmd ∈ ["delete", "boost", "unboost", "favourite", "unfavourite",
      "pin", "unpin"])
    (hid : ¬ opt.statusID < 1)
    (hlogin : env.loginOK = true)
    (hdel : env.deleteStatus = none) (hreb : env.reblogStatus = none)
    (hunreb : env.unreblogStatus = none) (hfav : env.favouriteStatus = none)
    (hunfav : env.unfavouriteStatus = none) (hpin : env.pinStatus = none)
    (hunpin : env.unpinStatus = none) :
    (runStatusInvocation subcmd themes rq opt env).exitCode = 0 ∧
    hasOutput (runStatusInvocation subcmd themes rq opt env).events = false := by
  have hidc : ¬ (opt.statusID < 1 ∧ subcmd ≠ "post") := fun hc => hid hc.1
  fin_cases hsub <;>
    cases hu : opt.unset <;>
      simp [runStatusInvocation, hid, hidc, hlogin, statusSubcommandRunE, statusSwitch,
        callEmpty, execute, hasOutput, Event.isOutput, hdel, hreb, hunreb, hfav,
        hunfav, hpin, hunpin, hu]

/-- Witness for `empty_result_exits_zero`: `status delete` with a succeeding
delete —  exit 0 and no output. -/
theorem empty_result_exits_zero_witness :
    (runStatusInvocation "delete" [] ⟨"plain", none, none, none, ""⟩
      ⟨1, false, 0, 0, false, "", false⟩ statusEnvW).exitCode = 0 ∧
    hasOutput (runStatusInvocation "delete" [] ⟨"plain", none, none, none, ""⟩
      ⟨1, false, 0, 0, false, "", false⟩ statusEnvW).events = false :=
  empty_result_exits_zero "delete" [] ⟨"plain", none, none, none, ""⟩
    ⟨1, false, 0, 0, false, "", false⟩ statusEnvW (by decide) (by decide)
    rfl rfl rfl rfl rfl rfl rfl rfl

/-- C1 counterexample: `status --status-id 1 delete --output bogus` performs
the DeleteStatus API call (statusCmd's own PersistentPreRunE shadows the root
checkOutputFormat hook) and then exits 0, because no result object ever
reaches the printer where the invalid format would be detected. -/
theorem invalid_format_reaches_api_on_status : ¬ invalidFormatFailsFastEverywhere := by
  intro h
  have h5 := (h [] ⟨"bogus", none, none, none, ""⟩ (by decide)).2.2.2.2
    "delete" ⟨1, false, 0, 0, false, "", false⟩ statusEnvW
  exact h5.1 (by decide)

/-- C1 amended: with an invalid --output value, the timeline, suggestions
list/delete and toot commands exit non-zero with no API call (the root hook
rejects them first); the status subcommands never render output, and whenever
their API operation produced a result object the invalid format is reported
after the API call and the process exits 1. -/
theorem invalid_format_failfast_except_status (themes : List String)
    (rq : RenderRequest) (hf : ¬ (rq.format ∈ "" :: validFormats)) :
    (∀ opt env, noCallFailFast (runTimelineInvocation themes rq opt env)) ∧
    (∀ opt env, noCallFailFast (runSuggestionsGetInvocation themes rq opt env)) ∧
    (∀ opt env, noCallFailFast (runSuggestionsDeleteInvocation themes rq opt env)) ∧
    (∀ opt env, noCallFailFast (runTootInvocation themes rq opt env)) ∧
    (∀ subcmd opt env,
        hasOutput (runStatusInvocation subcmd themes rq opt env).events = false) ∧
    (∀ subcmd opt env calls obj,
        statusSwitch subcmd opt env = some (calls, none, some obj) →
        statusSubcommandRunE subcmd opt env (getPrinterM themes rq) =
          ⟨calls.map (fun c => Event.apiCall c.1 c.2) ++
            [.errPrint ("Error: " ++ (RenderError.invalidFormat rq.format).message)],
            .exited 1⟩) := by
  have hval : validateRequest themes rq = some (.invalidFormat rq.format) := by
    unfold validateRequest
    rw [if_pos hf]
  have hchk : checkOutputFormatM themes rq = some (.invalidFormat rq.format) := hval
  have hpr : getPrinterM themes rq = .error (.invalidFormat rq.format) := by
    simp [getPrinterM, hval]
  refine ⟨?_, ?_, ?_, ?_, ?_, ?_⟩
  · intro opt env
    simp [runTimelineInvocation, runRootHooked, hchk, hval, checkOutputFormatM, execute,
      noCallFailFast, hasApiCall, Event.isApiCall]
  · intro opt env
    simp [runSuggestionsGetInvocation, runRootHooked, hchk, hval, checkOutputFormatM,
      execute, noCallFailFast, hasApiCall, Event.isApiCall]
  · intro opt env
    simp [runSuggestionsDeleteInvocation, runRootHooked, hchk, hval, checkOutputFormatM,
      execute, noCallFailFast, hasApiCall, Event.isApiCall]
  · intro opt env
    simp [runTootInvocation, runRootHooked, hchk, hval, checkOutputFormatM, execute,
      noCallFailFast, hasApiCall, Event.isApiCall]
  · intro subcmd opt env
    unfold runStatusInvocation
    split
    · simp [execute, hasOutput, Event.isOutput]
    · split
      · simp [execute, hasOutput, Event.isOutput]
      · unfold statusSubcommandRunE
        cases hsw : statusSwitch subcmd opt env with
        | none => simp [execute, hasOutput, Event.isOutput]
        | some triple =>
            obtain ⟨calls, err, obj⟩ := triple
            cases err with
            | some msg =>
                simp [execute, hasOutput, Event.isOutput]
                intro x a b hmem he
                subst he
                rfl
            | none =>
                cases obj with
                | none =>
                    simp [execute, hasOutput, Event.isOutput]
                    intro x a b hmem he
                    subst he
                    rfl
                | some res =>
                    rw [hpr]
                    simp [execute, hasOutput, Event.isOutput]
                    intro x a b hmem he
                    subst he
                    rfl
  · intro subcmd opt env calls obj hsw
    simp [statusSubcommandRunE, hsw, hpr]

/-- Witness for `invalid_format_failfast_except_status` at a concrete invalid
format: timeline fails fast with no API call; `status show` renders nothing. -/
theorem invalid_format_failfast_except_status_witness :
    noCallFailFast (runTimelineInvocation [] ⟨"bogus", none, none, none, ""⟩
      ⟨false, false, 0, 0, "", ""⟩ ⟨true, .ok []⟩) ∧
    hasOutput (runStatusInvocation "show" [] ⟨"bogus", none, none, none, ""⟩
      ⟨1, false, 0, 0, false, "", false⟩ statusEnvW).events = false := by
  have h := invalid_format_failfast_except_status [] ⟨"bogus", none, none, none, ""⟩
    (by decide)
  exact ⟨h.1 ⟨false, false, 0, 0, "", ""⟩ ⟨true, .ok []⟩,
    h.2.2.2.2.1 "show" ⟨1, false, 0, 0, false, "", false⟩ statusEnvW⟩

end Madonctl
